import Mathlib

/-!
Shallow embedding of the caching + streaming core of the `modx` repository:
the signed Redis-backed key-value cache (`src/modx/cache/redis.py`), the
replayable async stream engine (`src/modx/chatbot/types/stream.py`) and the
commit-on-completion glue of the streaming chat path
(`src/modx/chatbot/openai.py`).

Modelling conventions:
- Bytes are `Nat`; a byte string is `List Nat`.
- `pickle.dumps` / `pickle.loads` and `hmac.new(...).digest()` are opaque
  external functions, bundled as parameters in `SerlEnv`; theorems assume
  exactly the properties the code relies on (the MAC digest has length 32,
  loads inverts dumps) and witnesses instantiate them with concrete
  executable functions.
- The Redis server is a pure map from physical keys to entries carrying the
  stored bytes and an optional expiry; each client call that can raise
  `redis.RedisError` takes an explicit failure flag.  `client.ttl` sentinels
  (-2 absent, -1 no expiry) are represented by the entry's `Option` expiry.
- Python exceptions escaping a method are modelled with `Except`; exceptions
  caught inside a method are modelled by the branch the handler takes.
-/

namespace ModX

/-- A value as stored in the cache: either a real application value or the
pickled `CACHE_MISS` sentinel singleton (`modx/cache/__init__.py`). -/
inductive CVal (V : Type) where
  | real (v : V)
  | cacheMiss
deriving DecidableEq

/-- External serialization environment: `enc`/`dec` model `pickle.dumps` /
`pickle.loads` (with `dec = none` for a loads failure), `mac key data` models
`hmac.new(key.encode(), data, sha256).digest()`. -/
structure SerlEnv (V : Type) where
  enc : CVal V → List Nat
  dec : List Nat → Option (CVal V)
  mac : String → List Nat → List Nat

/-- The slice of `CacheConfig` / `RedisConfig` the cache methods read:
`pref`, `negative_ttl`, `default_ttl`, `redis.secure_serialization`,
`redis.secret_key` (a `str`; Python truthiness = nonempty). -/
structure CacheCfg where
  pref : String
  negativeTtl : Nat
  defaultTtl : Nat
  secureSerialization : Bool
  secretKey : String

/-- The Python signing condition `self.config.redis.secure_serialization and
self.config.redis.secret_key` (a string is truthy iff nonempty). -/
def CacheCfg.signingOn (cfg : CacheCfg) : Bool :=
  cfg.secureSerialization && !(cfg.secretKey == "")

/-- One physical Redis entry: the stored bytes and the optional expiry
(`none` = no associated expire, i.e. the `-1` case of `TTL`). -/
structure REntry where
  data : List Nat
  expiry : Option Nat
deriving DecidableEq

/-- The Redis keyspace, physical key to entry. -/
def Store : Type := String → Option REntry

/-- An empty keyspace. -/
def emptyStore : Store := fun _ => none

/-- `SET`/`SETEX`: overwrite the entry under `k`. -/
def storeSet (st : Store) (k : String) (e : REntry) : Store :=
  fun x => if x = k then some e else st x

/-- `DEL`: remove the entry under `k`. -/
def storeDel (st : Store) (k : String) : Store :=
  fun x => if x = k then none else st x

namespace RedisCache

variable {V : Type}

/-- `RedisCache.add_prefix`: physical key = `{pref}{key}`. -/
def addPref (cfg : CacheCfg) (key : String) : String :=
  cfg.pref ++ key

/-- `RedisCache.serl`: pickle the value; when signing is on, prepend the
32-byte HMAC-SHA256 tag over the pickled bytes. -/
def serl (cfg : CacheCfg) (E : SerlEnv V) (v : CVal V) : List Nat :=
  let data := E.enc v
  if cfg.signingOn then E.mac cfg.secretKey data ++ data else data

/-- `RedisCache.deserl`: when signing is on, split the first 32 bytes as the
tag, recompute the MAC over the remainder and compare; any failure (short
data, tag mismatch, unpickling failure) is re-raised as `ValueError`,
modelled as `.error ()`. -/
def deserl (cfg : CacheCfg) (E : SerlEnv V) (data : List Nat) :
    Except Unit (CVal V) :=
  if cfg.signingOn then
    if data.length < 32 then .error ()
    else
      let signature := data.take 32
      let payload := data.drop 32
      if signature = E.mac cfg.secretKey payload then
        match E.dec payload with
        | some v => .ok v
        | none => .error ()
      else .error ()
  else
    match E.dec data with
    | some v => .ok v
    | none => .error ()

/-- The branch `RedisCache.__getitem__` takes, one constructor per source
branch: a cache hit, a verified negative marker (logged
"Found negative cache"), a deserialization failure (corrupted data), no
physical entry (logged "Cache miss"), or a `redis.RedisError`. -/
inductive GetOutcome (V : Type) where
  | hit (v : V)
  | negative
  | corrupt
  | absent
  | storeError
deriving DecidableEq

/-- The value `__getitem__` actually returns to its caller: `V | Empty`. -/
inductive PyGet (V : Type) where
  | value (v : V)
  | empty
deriving DecidableEq

/-- Maps each `__getitem__` branch to its Python return value: only the hit
branch returns a usable value, every other branch returns `EMPTY`. -/
def getResult : GetOutcome V → PyGet V
  | .hit v => .value v
  | _ => .empty

/-- `RedisCache.__getitem__`: GET the physical key; deserialize, mapping a
verified `CacheMiss` marker and a missing entry to `EMPTY`; on a
deserialization `ValueError`, best-effort DEL the corrupted entry
(`failDel` = that DEL raising, swallowed) and return `EMPTY`; on a
`redis.RedisError` of the GET (`failGet`), return `EMPTY`.  Returns the
branch taken and the resulting keyspace. -/
def getitem (cfg : CacheCfg) (E : SerlEnv V) (st : Store)
    (failGet failDel : Bool) (key : String) : GetOutcome V × Store :=
  let pk := addPref cfg key
  if failGet then (.storeError, st)
  else
    match st pk with
    | some e =>
      match deserl cfg E e.data with
      | .ok .cacheMiss => (.negative, st)
      | .ok (.real v) => (.hit v, st)
      | .error _ => (.corrupt, if failDel then st else storeDel st pk)
    | none => (.absent, st)

/-- `RedisCache.set_negative`: SETEX the serialized `CACHE_MISS` marker under
the prefixed key with `negative_ttl`; a `redis.RedisError` (`fail`) is
swallowed. -/
def set_negative (cfg : CacheCfg) (E : SerlEnv V) (st : Store) (fail : Bool)
    (key : String) : Store :=
  if fail then st
  else storeSet st (addPref cfg key)
    ⟨serl cfg E .cacheMiss, some cfg.negativeTtl⟩

/-- `RedisCache.__setitem__`: SETEX the serialized value with `default_ttl`;
errors (`fail`) are swallowed. -/
def setitem (cfg : CacheCfg) (E : SerlEnv V) (st : Store) (fail : Bool)
    (key : String) (v : V) : Store :=
  if fail then st
  else storeSet st (addPref cfg key)
    ⟨serl cfg E (.real v), some cfg.defaultTtl⟩

/-- `RedisCache.setx`: SETEX with the explicit TTL when one is given, plain
SET (no expiry) otherwise; errors (`fail`) are swallowed. -/
def setx (cfg : CacheCfg) (E : SerlEnv V) (st : Store) (fail : Bool)
    (key : String) (v : V) (ttlArg : Option Nat) : Store :=
  if fail then st
  else storeSet st (addPref cfg key) ⟨serl cfg E (.real v), ttlArg⟩

/-- `RedisCache.__delitem__`: DEL the physical key; raise `KeyError`
(`.error ()`) when nothing was deleted, and also when the DEL itself raises
a `redis.RedisError` (`fail`) — the handler re-raises `KeyError(key)`. -/
def delitem (cfg : CacheCfg) (st : Store) (fail : Bool) (key : String) :
    Except Unit Unit × Store :=
  let pk := addPref cfg key
  if fail then (.error (), st)
  else
    match st pk with
    | some _ => (.ok (), storeDel st pk)
    | none => (.error (), st)

/-- `RedisCache.ttl`: `TTL` on the physical key; `-1` (exists, no expiry) and
`-2` (absent) both map to `None`, as does a `redis.RedisError` (`fail`);
otherwise the remaining duration. -/
def ttl (cfg : CacheCfg) (st : Store) (fail : Bool) (key : String) :
    Option Nat :=
  let pk := addPref cfg key
  if fail then none
  else
    match st pk with
    | none => none
    | some e =>
      match e.expiry with
      | none => none
      | some t => some t

/-- `RedisCache.setdefault`: GET the physical key; a stored real value is
returned unchanged; a verified negative marker returns `default` without any
write; corrupted data is best-effort deleted (`failDel` swallowed) and
treated as absent; when absent, a non-`None` default is written via
`__setitem__` (`failSet` swallowed there) and returned, else a fresh negative
marker is written (`failNeg` swallowed there) and `None` is returned; a
`redis.RedisError` of the GET (`failGet`) returns `default`. -/
def setdefault (cfg : CacheCfg) (E : SerlEnv V) (st : Store)
    (failGet failDel failSet failNeg : Bool) (key : String)
    (default : Option V) : Option V × Store :=
  let pk := addPref cfg key
  let absentBranch : Store → Option V × Store := fun st1 =>
    match default with
    | some d => (some d, setitem cfg E st1 failSet key d)
    | none => (none, set_negative cfg E st1 failNeg key)
  if failGet then (default, st)
  else
    match st pk with
    | some e =>
      match deserl cfg E e.data with
      | .ok .cacheMiss => (default, st)
      | .ok (.real v) => (some v, st)
      | .error _ => absentBranch (if failDel then st else storeDel st pk)
    | none => absentBranch st

end RedisCache

/-!
## Stream Engine (`AsyncStream`, `src/modx/chatbot/types/stream.py`)

An `AsyncStream` wraps a one-shot async source (here a pure `List V`) and an
optional mapper.  `__aiter__` either replays the buffered `_items` (when
`_is_consumed`) or marks the stream consumed and pulls / maps / buffers /
yields source items one by one.  A traversal is `async for` over a fresh
`__aiter__` generator: it may be run to exhaustion or abandoned after a
number of delivered items (breaking out leaves the generator suspended).
-/

/-- The mutable state of one `AsyncStream` instance together with the
position of its one-shot source iterator: `_is_consumed`, `_items`, the
source items not yet pulled, and `_completed`. -/
structure StreamSt (V T : Type) where
  isConsumed : Bool
  items : List T
  srcRemaining : List V
  completed : Bool
deriving DecidableEq

/-- A fresh `AsyncStream` over source `src`: not consumed, empty buffer. -/
def initStream {V T : Type} (src : List V) : StreamSt V T :=
  ⟨false, [], src, false⟩

/-- The observable outcome of one traversal: the items delivered to the
consumer, the stream state afterwards, and how many items were pulled from
the underlying source during the traversal. -/
structure TravOut (V T : Type) where
  yielded : List T
  st : StreamSt V T
  pulls : Nat
deriving DecidableEq

/-- One traversal of `AsyncStream.__aiter__` by a single consumer.
`budget = none` drains the generator to exhaustion; `budget = some k` means
the consumer breaks out after receiving `k` items (for `k = 0` the generator
body never runs, since `__aiter__` alone executes nothing).  In the replay
branch the buffer is yielded and the source untouched; in the first-pass
branch `_is_consumed` is set, then each source item is pulled, mapped,
appended to `_items` and yielded; `_completed` is reached only when the
consumer pulls past the last item. -/
def runTraversal {V T : Type} (m : V → T) (st : StreamSt V T)
    (budget : Option Nat) : TravOut V T :=
  match budget with
  | some 0 => ⟨[], st, 0⟩
  | _ =>
    if st.isConsumed then
      match budget with
      | none => ⟨st.items, st, 0⟩
      | some k => ⟨st.items.take k, st, 0⟩
    else
      match budget with
      | none =>
        let ys := st.srcRemaining.map m
        ⟨ys, ⟨true, st.items ++ ys, [], true⟩, st.srcRemaining.length⟩
      | some k =>
        let pulled := min k st.srcRemaining.length
        let ys := (st.srcRemaining.take pulled).map m
        ⟨ys,
          ⟨true, st.items ++ ys, st.srcRemaining.drop pulled,
            decide (st.srcRemaining.length < k)⟩,
          pulled⟩

/-!
## Commit-on-completion glue (`ChatCompletion.chat`, streaming branch,
`src/modx/chatbot/openai.py` lines 142-166)

The pipeline returned to the caller is
`AsyncStream(cache_on_complete())` where `cache_on_complete` iterates
`cached_stream = astream.tap(collect_content)` (accumulating each chunk's
`delta.content` into `full_content`) and, after that loop finishes, performs
`self.cache.setx(key, cached_message + [user, assistant], ttl)` provided
`key and full_content.strip()` is truthy.  For a single consumer the
composition is linear, so it is embedded as one step function: each step
either delivers the next (already mapped) chunk after tapping it, or — once
the chunks are exhausted — runs the conditional cache write and stops.
-/

/-- A streamed `CompletionChunk` as seen by the tap: only its
`delta.content` matters to the glue. -/
structure Chunk where
  content : Option String
deriving DecidableEq

/-- A chat message parameter as built by the glue
(`ChatCompletion{User,Assistant}MessageParam`). -/
structure Msg where
  role : String
  content : String
deriving DecidableEq

/-- The per-call constants of the streaming branch: the effective cache key
(`key = cache and cache_key`; `""` models falsy), the prior context read
from the cache (`cached_message`), the last user message's content
(`messages[-1].content`) and the configured `cache_ttl`. -/
structure GlueCtx where
  key : String
  cachedMessage : List Msg
  userContent : String
  cacheTtl : Nat

/-- `collect_content`: `if chunk.delta.content: full_content += ...`
(a `None` or empty delta leaves the accumulator unchanged). -/
def collectContent (acc : String) (c : Chunk) : String :=
  match c.content with
  | some s => if s = "" then acc else acc ++ s
  | none => acc

/-- Python truthiness of `s.strip()`: true iff `s` has a non-whitespace
character. -/
def stripTruthy (s : String) : Bool :=
  s.toList.any (fun c => !c.isWhitespace)

/-- The state of the suspended `cache_on_complete` generator: chunks not yet
delivered, the `full_content` accumulator, the `setx` calls performed so far
(key, value, ttl), and whether the generator has finished. -/
structure GlueSt where
  remaining : List Chunk
  fullContent : String
  writes : List (String × List Msg × Nat)
  done : Bool
deriving DecidableEq

/-- The generator state before the consumer pulls anything. -/
def glueInit (chunks : List Chunk) : GlueSt :=
  ⟨chunks, "", [], false⟩

/-- One resumption of the pipeline: deliver the next chunk (tapping it into
`full_content` first), or — after the last chunk — run
`if key and full_content.strip(): self.cache.setx(key, cached_message +
[user(messages[-1].content), assistant(full_content)], ttl=cache_ttl)` and
signal exhaustion. -/
def glueStep (ctx : GlueCtx) (s : GlueSt) : Option Chunk × GlueSt :=
  if s.done then (none, s)
  else
    match s.remaining with
    | c :: rest =>
      (some c, { s with remaining := rest,
                        fullContent := collectContent s.fullContent c })
    | [] =>
      if !(ctx.key == "") && stripTruthy s.fullContent then
        let w : String × List Msg × Nat :=
          (ctx.key,
           ctx.cachedMessage ++
             [⟨"user", ctx.userContent⟩, ⟨"assistant", s.fullContent⟩],
           ctx.cacheTtl)
        (none, { s with done := true, writes := s.writes ++ [w] })
      else (none, { s with done := true })

/-- Drive the pipeline for at most `fuel` consumer pulls, stopping early at
exhaustion; abandoning after `k` delivered chunks is `fuel = k` (the
generator stays suspended), a full drain is any `fuel > ` number of chunks
(the consumer's final pull runs the epilogue). -/
def glueRun (ctx : GlueCtx) (s : GlueSt) : Nat → List Chunk × GlueSt
  | 0 => ([], s)
  | fuel + 1 =>
    match glueStep ctx s with
    | (none, s1) => ([], s1)
    | (some c, s1) =>
      let r := glueRun ctx s1 fuel
      (c :: r.1, r.2)

/-- The concatenation, in order, of every fragment's textual delta. -/
def concatDeltas (chunks : List Chunk) : String :=
  String.join (chunks.map (fun c => c.content.getD ""))

/-!
## Concrete instantiations used by the closed witness theorems

`pickle` and `hmac` are external; witnesses instantiate them with small
executable functions having exactly the properties the proofs assume: a
pickling on `CVal Nat` inverted by its unpickling, and an injective
fixed-key digest of length 32.
-/

/-- Injectively pack a byte string into one natural number. -/
def packL : List Nat → Nat
  | [] => 0
  | a :: l => Nat.pair a (packL l) + 1

theorem packL_injective : Function.Injective packL := by
  intro l1
  induction l1 with
  | nil =>
    intro l2 h
    cases l2 with
    | nil => rfl
    | cons b m => simp [packL] at h
  | cons a l ih =>
    intro l2 h
    cases l2 with
    | nil => simp [packL] at h
    | cons b m =>
      simp only [packL, Nat.add_right_cancel_iff, Nat.pair_eq_pair] at h
      obtain ⟨h1, h2⟩ := h
      rw [h1, ih h2]

/-- A concrete stand-in for `pickle.dumps` on `CVal Nat`. -/
def encN : CVal Nat → List Nat
  | .real n => [0, n]
  | .cacheMiss => [1]

/-- A concrete stand-in for `pickle.loads`, inverse of `encN`. -/
def decN : List Nat → Option (CVal Nat)
  | [0, n] => some (.real n)
  | [1] => some .cacheMiss
  | _ => none

theorem decN_encN : ∀ v : CVal Nat, decN (encN v) = some v := by
  intro v
  cases v <;> rfl

/-- A concrete stand-in for the HMAC digest: injective in the data and of
length 32, the two properties the verification path relies on. -/
def macC (_k : String) (d : List Nat) : List Nat :=
  packL d :: List.replicate 31 0

theorem macC_len : ∀ k d, (macC k d).length = 32 := by
  intro k d
  simp [macC]

theorem macC_injective (k : String) : Function.Injective (macC k) := by
  intro d1 d2 h
  simp only [macC, List.cons.injEq] at h
  exact packL_injective h.1

/-- The concrete serialization environment of the witnesses. -/
def EC : SerlEnv Nat := ⟨encN, decN, macC⟩

/-- A concrete configuration with signing enabled. -/
def cfgC : CacheCfg :=
  ⟨"modx:", 60, 3600, true, "sk"⟩

/-- A concrete configuration with signing disabled. -/
def cfgP : CacheCfg :=
  ⟨"modx:", 60, 3600, false, ""⟩

/-!
## Helper lemmas about the serialization round trip
-/

section SerlLemmas

variable {V : Type}

/-- Deserializing a just-serialized value yields the value back, under the
two facts the code relies on: the digest is 32 bytes long and unpickling
inverts pickling. -/
theorem deserl_serl (cfg : CacheCfg) (E : SerlEnv V)
    (hml : ∀ d, (E.mac cfg.secretKey d).length = 32)
    (v : CVal V) (hde : E.dec (E.enc v) = some v) :
    RedisCache.deserl cfg E (RedisCache.serl cfg E v) = .ok v := by
  unfold RedisCache.serl RedisCache.deserl
  cases hsig : cfg.signingOn with
  | false => simp [hde]
  | true =>
    have hml1 := hml (E.enc v)
    have ht : (E.mac cfg.secretKey (E.enc v) ++ E.enc v).take 32
        = E.mac cfg.secretKey (E.enc v) := by
      rw [← hml1]
      exact List.take_left _ _
    have hd : (E.mac cfg.secretKey (E.enc v) ++ E.enc v).drop 32
        = E.enc v := by
      rw [← hml1]
      exact List.drop_left _ _
    have hlen : ¬ (E.mac cfg.secretKey (E.enc v) ++ E.enc v).length < 32 := by
      simp [List.length_append, hml1]
    simp only [if_true]
    rw [if_neg hlen, hd, ht, if_pos rfl, hde]

/-- Corrupting a single byte of a signed serialized payload makes
deserialization fail, assuming an ideal (injective) MAC. -/
theorem deserl_set_error (cfg : CacheCfg) (E : SerlEnv V)
    (hsig : cfg.signingOn = true)
    (hml : ∀ d, (E.mac cfg.secretKey d).length = 32)
    (hmi : Function.Injective (E.mac cfg.secretKey))
    (v : CVal V) (i b : Nat)
    (hne : (RedisCache.serl cfg E v).set i b ≠ RedisCache.serl cfg E v) :
    RedisCache.deserl cfg E ((RedisCache.serl cfg E v).set i b)
      = .error () := by
  set p := E.enc v with hp
  set mp := E.mac cfg.secretKey p with hmp
  have hserl : RedisCache.serl cfg E v = mp ++ p := by
    unfold RedisCache.serl
    rw [hsig]
    simp
  have hml1 : mp.length = 32 := hml p
  rw [hserl] at hne
  rw [hserl]
  have hlen : (mp ++ p).length = 32 + p.length := by
    rw [List.length_append, hml1]
  have hlenset : ((mp ++ p).set i b).length = 32 + p.length := by
    rw [List.length_set, hlen]
  unfold RedisCache.deserl
  rw [hsig]
  simp only [if_true]
  rw [if_neg (by omega)]
  by_cases hcase : i < 32
  · -- corruption inside the 32-byte tag: the payload is intact, the stored
    -- tag now differs from the recomputed MAC
    have hset : (mp ++ p).set i b = mp.set i b ++ p :=
      List.set_append_left i b (by omega)
    have htake : ((mp ++ p).set i b).take 32 = mp.set i b := by
      rw [hset, ← show (mp.set i b).length = 32 by rw [List.length_set, hml1]]
      exact List.take_left _ _
    have hdrop : ((mp ++ p).set i b).drop 32 = p := by
      rw [hset, ← show (mp.set i b).length = 32 by rw [List.length_set, hml1]]
      exact List.drop_left _ _
    rw [htake, hdrop, if_neg]
    intro heq
    rw [← hmp] at heq
    rw [hset] at hne
    exact hne (by rw [heq])
  · -- corruption inside the pickled payload: the recomputed MAC over the
    -- altered payload differs from the intact stored tag (MAC injectivity)
    have hmpl : mp.length ≤ i := by omega
    have hset : (mp ++ p).set i b = mp ++ p.set (i - mp.length) b :=
      List.set_append_right i b hmpl
    have htake : ((mp ++ p).set i b).take 32 = mp := by
      rw [hset, ← hml1]
      exact List.take_left _ _
    have hdrop : ((mp ++ p).set i b).drop 32 = p.set (i - mp.length) b := by
      rw [hset, ← hml1]
      simp only [hml1]
      rw [← hml1]
      exact List.drop_left _ _
    rw [htake, hdrop, if_neg]
    intro heq
    have hpne : p.set (i - mp.length) b ≠ p := by
      intro hpe
      rw [hset, hpe] at hne
      exact hne rfl
    exact hpne (hmi (heq.symm.trans hmp.symm))

end SerlLemmas

open RedisCache

/-- C9: for every value `V` and key, `set(key, V)` followed by `get(key)`
returns `Hit(V)` with a value equal to `V`: the serialize-then-deserialize
round trip, including the optional MAC signing and verification, is the
identity on values (assuming the 32-byte digest length and that unpickling
inverts pickling). -/
theorem c9_set_get_roundtrip {V : Type} (cfg : CacheCfg) (E : SerlEnv V)
    (st : Store) (key : String) (v : V)
    (hml : ∀ d, (E.mac cfg.secretKey d).length = 32)
    (hde : E.dec (E.enc (CVal.real v)) = some (CVal.real v)) :
    getitem cfg E (setitem cfg E st false key v) false false key
      = (GetOutcome.hit v, setitem cfg E st false key v) := by
  have hrt := deserl_serl cfg E hml (CVal.real v) hde
  simp [getitem, setitem, storeSet, hrt]

/-- Witness for C9 at concrete inputs: signing enabled, value `5`. -/
theorem c9_set_get_roundtrip_witness :
    getitem cfgC EC (setitem cfgC EC emptyStore false "k" 5) false false "k"
      = (GetOutcome.hit 5, setitem cfgC EC emptyStore false "k" 5) :=
  c9_set_get_roundtrip cfgC EC emptyStore "k" 5
    (fun d => macC_len cfgC.secretKey d) (by decide)

/-- C2: with signing enabled, for every stored payload and every single-byte
corruption of it, the next `get` on that key returns `Miss` (the corrupt
branch, whose return value is `EMPTY`) and deletes the corrupted physical
entry, so a second immediate `get` returns `Miss` through the no-entry
branch (assuming an ideal, injective MAC of digest length 32). -/
theorem c2_tamper_detection {V : Type} (cfg : CacheCfg) (E : SerlEnv V)
    (st : Store) (key : String) (v : CVal V) (tl : Option Nat) (i b : Nat)
    (hsig : cfg.signingOn = true)
    (hml : ∀ d, (E.mac cfg.secretKey d).length = 32)
    (hmi : Function.Injective (E.mac cfg.secretKey))
    (hne : (serl cfg E v).set i b ≠ serl cfg E v)
    (hst : st (addPref cfg key) = some ⟨(serl cfg E v).set i b, tl⟩) :
    getitem cfg E st false false key
        = (GetOutcome.corrupt, storeDel st (addPref cfg key))
      ∧ getitem cfg E (storeDel st (addPref cfg key)) false false key
        = (GetOutcome.absent, storeDel st (addPref cfg key))
      ∧ getResult (GetOutcome.corrupt : GetOutcome V) = PyGet.empty := by
  have herr := deserl_set_error cfg E hsig hml hmi v i b hne
  refine ⟨?_, ?_, rfl⟩
  · simp [getitem, hst, herr]
  · simp [getitem, storeDel]

/-- Witness for C2: value `5` stored signed under key `"k"`, byte 33 (inside
the pickled payload) flipped from `5` to `7`. -/
theorem c2_tamper_detection_witness :
    getitem cfgC EC
        (storeSet emptyStore (addPref cfgC "k")
          ⟨(serl cfgC EC (CVal.real 5)).set 33 7, some 3600⟩)
        false false "k"
      = (GetOutcome.corrupt,
         storeDel
           (storeSet emptyStore (addPref cfgC "k")
             ⟨(serl cfgC EC (CVal.real 5)).set 33 7, some 3600⟩)
           (addPref cfgC "k")) :=
  (c2_tamper_detection cfgC EC
    (storeSet emptyStore (addPref cfgC "k")
      ⟨(serl cfgC EC (CVal.real 5)).set 33 7, some 3600⟩)
    "k" (CVal.real 5) (some 3600) 33 7 (by decide)
    (fun d => macC_len cfgC.secretKey d) (macC_injective cfgC.secretKey)
    (by decide) (by decide)).1

/-- C5: `get(key)` never raises for backing-store failures: a
`redis.RedisError` on the GET degrades the result to the `EMPTY` miss value
with the keyspace untouched, and even a failing best-effort deletion of a
corrupted entry is swallowed, the lookup still returning `EMPTY`. -/
theorem c5_get_degrades_to_miss {V : Type} (cfg : CacheCfg) (E : SerlEnv V) :
    (∀ (st : Store) (failDel : Bool) (key : String),
      getitem cfg E st true failDel key = (GetOutcome.storeError, st)
      ∧ getResult ((getitem cfg E st true failDel key).1)
          = (PyGet.empty : PyGet V))
    ∧ (∀ (st : Store) (key : String) (e : REntry),
      st (addPref cfg key) = some e →
      deserl cfg E e.data = .error () →
      getitem cfg E st false true key = (GetOutcome.corrupt, st)
      ∧ getResult ((getitem cfg E st false true key).1)
          = (PyGet.empty : PyGet V)) := by
  constructor
  · intro st failDel key
    constructor
    · simp [getitem]
    · simp [getitem, getResult]
  · intro st key e hst herr
    constructor
    · simp [getitem, hst, herr]
    · simp [getitem, hst, herr, getResult]

/-- Witness for C5: a failing GET on an arbitrary concrete store, and a
failing corrupted-entry deletion under key `"k"`. -/
theorem c5_get_degrades_to_miss_witness :
    (getitem cfgC EC emptyStore true false "k"
      = (GetOutcome.storeError, emptyStore))
    ∧ getitem cfgC EC
        (storeSet emptyStore (addPref cfgC "k") ⟨[9], none⟩) false true "k"
      = (GetOutcome.corrupt,
         storeSet emptyStore (addPref cfgC "k") ⟨[9], none⟩) := by
  constructor
  · exact ((c5_get_degrades_to_miss cfgC EC).1 emptyStore false "k").1
  · exact ((c5_get_degrades_to_miss cfgC EC).2
      (storeSet emptyStore (addPref cfgC "k") ⟨[9], none⟩) "k" ⟨[9], none⟩
      (by decide) rfl).1

/-- C3 counterexample: after `set_negative("k")`, `__getitem__` returns the
very same `EMPTY` value it returns for the absent key on an empty store —
the caller-visible result of a tombstone lookup is NOT distinct from `Miss`
(the distinction exists only internally, in the branch taken). -/
theorem c3_counterexample :
    getResult ((getitem cfgC EC
        (set_negative cfgC EC emptyStore false "k") false false "k").1)
      = getResult ((getitem cfgC EC emptyStore false false "k").1)
    ∧ getResult ((getitem cfgC EC
        (set_negative cfgC EC emptyStore false "k") false false "k").1)
      = (PyGet.empty : PyGet Nat) := by
  constructor <;> rfl

/-- C3 (amended): after `set_negative(key)`, `get(key)` internally detects
the tombstone (the negative-cache branch, distinct from the no-entry
branch), but its caller-visible return value is `EMPTY` — distinct from
every `Hit(v)` yet identical to the `Miss` return; only the hit branch
unwraps to a usable value. -/
theorem c3_negative_get {V : Type} (cfg : CacheCfg) (E : SerlEnv V)
    (st : Store) (key : String)
    (hml : ∀ d, (E.mac cfg.secretKey d).length = 32)
    (hde : E.dec (E.enc CVal.cacheMiss) = some CVal.cacheMiss) :
    getitem cfg E (set_negative cfg E st false key) false false key
        = (GetOutcome.negative, set_negative cfg E st false key)
      ∧ getResult (GetOutcome.negative : GetOutcome V) = PyGet.empty
      ∧ getResult (GetOutcome.negative : GetOutcome V)
          = getResult (GetOutcome.absent : GetOutcome V)
      ∧ ∀ v : V, getResult (GetOutcome.negative : GetOutcome V)
          ≠ getResult (GetOutcome.hit v) := by
  have hrt := deserl_serl cfg E hml CVal.cacheMiss hde
  refine ⟨?_, rfl, rfl, ?_⟩
  · simp [getitem, set_negative, storeSet, hrt]
  · intro v
    simp [getResult]

/-- Witness for C3's amended theorem at concrete inputs. -/
theorem c3_negative_get_witness :
    getitem cfgC EC (set_negative cfgC EC emptyStore false "k")
        false false "k"
      = (GetOutcome.negative, set_negative cfgC EC emptyStore false "k") :=
  (c3_negative_get cfgC EC emptyStore "k"
    (fun d => macC_len cfgC.secretKey d) (by decide)).1

/-- C4: `setdefault(key, default)` returns a stored real value unchanged
without writing; returns `default` without overwriting a stored negative
marker; and when the key is absent writes the non-`None` default via
`__setitem__` (returning it), or writes a fresh negative marker and returns
`None` when no default is given. -/
theorem c4_setdefault {V : Type} (cfg : CacheCfg) (E : SerlEnv V)
    (hml : ∀ d, (E.mac cfg.secretKey d).length = 32) :
    (∀ (st : Store) (key : String) (default : Option V) (v : V)
        (tl : Option Nat),
      E.dec (E.enc (CVal.real v)) = some (CVal.real v) →
      st (addPref cfg key) = some ⟨serl cfg E (CVal.real v), tl⟩ →
      setdefault cfg E st false false false false key default = (some v, st))
    ∧ (∀ (st : Store) (key : String) (default : Option V) (tl : Option Nat),
      E.dec (E.enc CVal.cacheMiss) = some CVal.cacheMiss →
      st (addPref cfg key) = some ⟨serl cfg E CVal.cacheMiss, tl⟩ →
      setdefault cfg E st false false false false key default
        = (default, st))
    ∧ (∀ (st : Store) (key : String) (d : V),
      st (addPref cfg key) = none →
      setdefault cfg E st false false false false key (some d)
        = (some d, setitem cfg E st false key d))
    ∧ (∀ (st : Store) (key : String),
      st (addPref cfg key) = none →
      setdefault cfg E st false false false false key none
        = (none, set_negative cfg E st false key)) := by
  refine ⟨?_, ?_, ?_, ?_⟩
  · intro st key default v tl hde hst
    have hrt := deserl_serl cfg E hml (CVal.real v) hde
    simp [setdefault, hst, hrt]
  · intro st key default tl hde hst
    have hrt := deserl_serl cfg E hml CVal.cacheMiss hde
    simp [setdefault, hst, hrt]
  · intro st key d hst
    simp [setdefault, hst]
  · intro st key hst
    simp [setdefault, hst]

/-- Witness for C4: all three behaviors at concrete inputs. -/
theorem c4_setdefault_witness :
    setdefault cfgC EC (setitem cfgC EC emptyStore false "k" 5)
        false false false false "k" (some 9)
      = (some 5, setitem cfgC EC emptyStore false "k" 5)
    ∧ setdefault cfgC EC (set_negative cfgC EC emptyStore false "k")
        false false false false "k" (some 9)
      = (some 9, set_negative cfgC EC emptyStore false "k")
    ∧ setdefault cfgC EC emptyStore false false false false "k" (some 9)
      = (some 9, setitem cfgC EC emptyStore false "k" 9)
    ∧ setdefault cfgC EC emptyStore false false false false "k" none
      = (none, set_negative cfgC EC emptyStore false "k") := by
  have h := c4_setdefault cfgC EC (fun d => macC_len cfgC.secretKey d)
  refine ⟨?_, ?_, ?_, ?_⟩
  · exact h.1 (setitem cfgC EC emptyStore false "k" 5) "k" (some 9) 5
      (some cfgC.defaultTtl) (by decide) rfl
  · exact h.2.1 (set_negative cfgC EC emptyStore false "k") "k" (some 9)
      (some cfgC.negativeTtl) (by decide) rfl
  · exact h.2.2.1 emptyStore "k" 9 rfl
  · exact h.2.2.2 emptyStore "k" rfl

/-- C6 counterexample: with an entry present under `"modx:k"`, a
backing-store failure during `__delitem__` surfaces to the caller as a
raised `KeyError` (`Except.error`) — the failure is not silent. -/
theorem c6_counterexample :
    delitem cfgC (storeSet emptyStore "modx:k" ⟨[0, 5], none⟩) true "k"
        = (Except.error (), storeSet emptyStore "modx:k" ⟨[0, 5], none⟩)
      ∧ storeSet emptyStore "modx:k" ⟨[0, 5], none⟩ (addPref cfgC "k")
        = some ⟨[0, 5], none⟩ := by
  constructor <;> rfl

/-- C6 (amended): `delete(key)` removes whatever value or negative marker is
stored under the key and raises `KeyError` exactly when the resulting
keyspace is unchanged — i.e. when nothing was removed; a backing-store
failure is signalled with that same `KeyError` (the not-found condition)
rather than surfacing as a store-level error. -/
theorem c6_delete (cfg : CacheCfg) (st : Store) (key : String) :
    (∀ e, st (addPref cfg key) = some e →
      delitem cfg st false key = (.ok (), storeDel st (addPref cfg key))
      ∧ storeDel st (addPref cfg key) (addPref cfg key) = none)
    ∧ (st (addPref cfg key) = none →
      delitem cfg st false key = (.error (), st))
    ∧ (delitem cfg st true key = (.error (), st))
    ∧ (∀ fail, ((delitem cfg st fail key).1 = .error ()
        ↔ (delitem cfg st fail key).2 = st)) := by
  refine ⟨?_, ?_, ?_, ?_⟩
  · intro e hst
    constructor
    · simp [delitem, hst]
    · simp [storeDel]
  · intro hst
    simp [delitem, hst]
  · simp [delitem]
  · intro fail
    cases fail with
    | true => simp [delitem]
    | false =>
      cases hst : st (addPref cfg key) with
      | none => simp [delitem, hst]
      | some e =>
        simp only [delitem, Bool.false_eq_true, if_false, hst]
        constructor
        · intro h
          exact absurd h (by simp)
        · intro h
          have h2 := congrFun h (addPref cfg key)
          rw [storeDel, if_pos rfl, hst] at h2
          exact absurd h2 (by simp)

/-- Witness for C6's amended theorem at concrete inputs. -/
theorem c6_delete_witness :
    delitem cfgC (storeSet emptyStore "modx:k" ⟨[0, 5], none⟩) false "k"
        = (.ok (),
           storeDel (storeSet emptyStore "modx:k" ⟨[0, 5], none⟩)
             (addPref cfgC "k"))
      ∧ delitem cfgC emptyStore false "k" = (.error (), emptyStore) := by
  constructor
  · exact ((c6_delete cfgC (storeSet emptyStore "modx:k" ⟨[0, 5], none⟩)
      "k").1 ⟨[0, 5], none⟩ rfl).1
  · exact (c6_delete cfgC emptyStore "k").2.1 rfl

/-- C7: `ttl(key)` returns `none` on a backing-store failure, when the key is
absent (`TTL = -2`), and when the key exists without expiry (`TTL = -1`,
e.g. after `setx(key, V, ttl=None)`); a finite duration is returned only
when the key exists with an expiry — so the `none` return does not
distinguish "absent" from "no expiry". -/
theorem c7_ttl {V : Type} (cfg : CacheCfg) (E : SerlEnv V) :
    (∀ (st : Store) (key : String), RedisCache.ttl cfg st true key = none)
    ∧ (∀ (st : Store) (key : String), st (addPref cfg key) = none →
        RedisCache.ttl cfg st false key = none)
    ∧ (∀ (st : Store) (key : String) (e : REntry),
        st (addPref cfg key) = some e → e.expiry = none →
        RedisCache.ttl cfg st false key = none)
    ∧ (∀ (st : Store) (key : String) (t : Nat),
        RedisCache.ttl cfg st false key = some t →
        ∃ e, st (addPref cfg key) = some e ∧ e.expiry = some t)
    ∧ (∀ (st : Store) (key : String) (v : V),
        RedisCache.ttl cfg (setx cfg E st false key v none) false key
          = none) := by
  refine ⟨?_, ?_, ?_, ?_, ?_⟩
  · intro st key
    simp [RedisCache.ttl]
  · intro st key h
    simp [RedisCache.ttl, h]
  · intro st key e h he
    simp [RedisCache.ttl, h, he]
  · intro st key t h
    unfold RedisCache.ttl at h
    simp only [Bool.false_eq_true, if_false] at h
    cases hst : st (addPref cfg key) with
    | none => rw [hst] at h; simp at h
    | some e =>
      rw [hst] at h
      dsimp only at h
      cases he : e.expiry with
      | none => rw [he] at h; simp at h
      | some t2 =>
        rw [he] at h
        simp only [Option.some.injEq] at h
        exact ⟨e, rfl, by rw [he, h]⟩
  · intro st key v
    simp [RedisCache.ttl, setx, storeSet]

/-- Witness for C7: concrete absence, no-expiry and finite-TTL cases. -/
theorem c7_ttl_witness :
    RedisCache.ttl cfgC emptyStore false "k" = none
    ∧ RedisCache.ttl cfgC
        (setx cfgC EC emptyStore false "k" 5 none) false "k" = none
    ∧ RedisCache.ttl cfgC emptyStore true "k" = none := by
  refine ⟨?_, ?_, ?_⟩
  · exact (c7_ttl cfgC EC).2.1 emptyStore "k" (by decide)
  · exact (c7_ttl cfgC EC).2.2.2.2 emptyStore "k" 5
  · exact (c7_ttl cfgC EC).1 emptyStore "k"

/-- C8: for every finite source, draining a fresh stream once yields the
mapped source items while pulling each source item exactly once; draining it
again yields the same item sequence with zero source pulls, replaying
strictly from the buffer, and leaves the state untouched (so every later
traversal replays identically). -/
theorem c8_stream_memoization {V T : Type} (src : List V) (m : V → T) :
    (runTraversal m (initStream src) none).yielded = src.map m
    ∧ (runTraversal m (initStream src) none).pulls = src.length
    ∧ (runTraversal m (runTraversal m (initStream src) none).st none).yielded
        = src.map m
    ∧ (runTraversal m (runTraversal m (initStream src) none).st none).pulls
        = 0
    ∧ (runTraversal m (runTraversal m (initStream src) none).st none).st
        = (runTraversal m (initStream src) none).st := by
  refine ⟨?_, ?_, ?_, ?_, ?_⟩ <;> simp [runTraversal, initStream]

/-- C10: once a first traversal has started and was abandoned after `k` of
the source's items, the stream is marked consumed with exactly those `k`
mapped items buffered; a subsequent full traversal replays exactly those `k`
items with zero source pulls and leaves the state unchanged (so the
remaining source items are never delivered by this stream again). -/
theorem c10_partial_first_traversal {V T : Type} (src : List V) (m : V → T)
    (k : Nat) (h1 : 1 ≤ k) (h2 : k ≤ src.length) :
    (runTraversal m (initStream src) (some k)).yielded = (src.take k).map m
    ∧ (runTraversal m (initStream src) (some k)).pulls = k
    ∧ (runTraversal m (initStream src) (some k)).st.isConsumed = true
    ∧ (runTraversal m (initStream src) (some k)).st.items
        = (src.take k).map m
    ∧ runTraversal m (runTraversal m (initStream src) (some k)).st none
        = ⟨(src.take k).map m,
           (runTraversal m (initStream src) (some k)).st, 0⟩ := by
  cases k with
  | zero => omega
  | succ j =>
    have hmin : min (j + 1) src.length = j + 1 := Nat.min_eq_left h2
    have hnlt : ¬ src.length < j + 1 := by omega
    refine ⟨?_, ?_, ?_, ?_, ?_⟩ <;>
      simp [runTraversal, initStream, hmin, hnlt]

/-- Witness for C10: source `[1, 2, 3]`, identity mapper, first consumer
abandons after 2 items. -/
theorem c10_partial_first_traversal_witness :
    (runTraversal (fun n => n) (initStream [1, 2, 3]) (some 2)).yielded
        = [1, 2]
    ∧ runTraversal (fun n => n)
        (runTraversal (fun n => n) (initStream [1, 2, 3]) (some 2)).st none
      = ⟨[1, 2],
         (runTraversal (fun n => n) (initStream [1, 2, 3]) (some 2)).st,
         0⟩ := by
  have h := c10_partial_first_traversal [1, 2, 3] (fun n => n) 2
    (by decide) (by decide)
  exact ⟨h.1, h.2.2.2.2⟩

/-!
## Helper lemmas about the glue pipeline
-/

theorem collectContent_eq (acc : String) (c : Chunk) :
    collectContent acc c = acc ++ c.content.getD "" := by
  cases hc : c.content with
  | none => simp [collectContent, hc, String.append_empty]
  | some s =>
    by_cases hs : s = ""
    · simp [collectContent, hc, hs, String.append_empty]
    · simp [collectContent, hc, hs]

theorem strFoldl_hoist (l : List String) :
    ∀ a, List.foldl (fun r s => r ++ s) a l
      = a ++ List.foldl (fun r s => r ++ s) "" l := by
  induction l with
  | nil =>
    intro a
    simp [String.append_empty]
  | cons x l ih =>
    intro a
    simp only [List.foldl_cons]
    rw [ih (a ++ x), ih ("" ++ x), String.append_assoc]
    rfl

theorem concatDeltas_cons (c : Chunk) (cs : List Chunk) :
    concatDeltas (c :: cs) = c.content.getD "" ++ concatDeltas cs := by
  simp only [concatDeltas, List.map_cons, String.join, List.foldl_cons]
  rw [strFoldl_hoist]
  rfl

theorem foldl_collect (cs : List Chunk) :
    ∀ acc, List.foldl collectContent acc cs = acc ++ concatDeltas cs := by
  induction cs with
  | nil =>
    intro acc
    simp [concatDeltas, String.join, String.append_empty]
  | cons c cs ih =>
    intro acc
    rw [List.foldl_cons, ih, collectContent_eq, concatDeltas_cons,
      String.append_assoc]

/-- Draining the suspended generator: once the consumer pulls past the last
chunk, the epilogue runs exactly once — the conditional `setx` — and the
generator finishes. -/
theorem glueRun_drain (ctx : GlueCtx) :
    ∀ (cs : List Chunk) (s : GlueSt), s.done = false → s.remaining = cs →
    ∀ fuel, cs.length + 1 ≤ fuel →
    glueRun ctx s fuel
      = (cs,
         ⟨[], List.foldl collectContent s.fullContent cs,
          s.writes ++
            (if !(ctx.key == "")
                && stripTruthy (List.foldl collectContent s.fullContent cs)
             then [(ctx.key,
                    ctx.cachedMessage ++
                      [⟨"user", ctx.userContent⟩,
                       ⟨"assistant",
                        List.foldl collectContent s.fullContent cs⟩],
                    ctx.cacheTtl)]
             else []),
          true⟩) := by
  intro cs
  induction cs with
  | nil =>
    intro s hdone hrem fuel hfuel
    obtain ⟨rem, fc, w, d⟩ := s
    simp only at hdone hrem
    subst hdone hrem
    obtain ⟨f, rfl⟩ : ∃ f, fuel = f + 1 := ⟨fuel - 1, by omega⟩
    by_cases hcond : (!(ctx.key == "") && stripTruthy fc) = true
    · simp [glueRun, glueStep, hcond]
    · simp [glueRun, glueStep, hcond]
  | cons c cs ih =>
    intro s hdone hrem fuel hfuel
    obtain ⟨rem, fc, w, d⟩ := s
    simp only at hdone hrem
    subst hdone hrem
    obtain ⟨f, rfl⟩ : ∃ f, fuel = f + 1 := ⟨fuel - 1, by omega⟩
    have hstep : glueStep ctx ⟨c :: cs, fc, w, false⟩
        = (some c, ⟨cs, collectContent fc c, w, false⟩) := by
      simp [glueStep]
    have hfuel2 : cs.length + 1 ≤ f := by
      simp only [List.length_cons] at hfuel
      omega
    simp only [glueRun, hstep]
    rw [ih ⟨cs, collectContent fc c, w, false⟩ rfl rfl f hfuel2]
    simp [List.foldl_cons]

/-- Abandoning the stream early: with at most as many pulls as there are
chunks, the epilogue never runs — no write occurs and the generator stays
unfinished. -/
theorem glueRun_partial (ctx : GlueCtx) :
    ∀ (fuel : Nat) (s : GlueSt), s.done = false →
    fuel ≤ s.remaining.length →
    (glueRun ctx s fuel).1 = s.remaining.take fuel
    ∧ (glueRun ctx s fuel).2.writes = s.writes
    ∧ (glueRun ctx s fuel).2.done = false := by
  intro fuel
  induction fuel with
  | zero =>
    intro s hdone hlen
    simp [glueRun, hdone]
  | succ f ih =>
    intro s hdone hlen
    obtain ⟨rem, fc, w, d⟩ := s
    simp only at hdone hlen ⊢
    subst hdone
    cases rem with
    | nil => simp at hlen
    | cons c cs =>
      have hstep : glueStep ctx ⟨c :: cs, fc, w, false⟩
          = (some c, ⟨cs, collectContent fc c, w, false⟩) := by
        simp [glueStep]
      have hlen2 : f ≤ cs.length := by
        simp only [List.length_cons] at hlen
        omega
      have hrec := ih ⟨cs, collectContent fc c, w, false⟩ rfl hlen2
      simp only [glueRun, hstep, List.take_succ_cons]
      exact ⟨by rw [hrec.1], hrec.2.1, hrec.2.2⟩

/-- A concrete streaming-call context: cache key `"k"`, empty prior context,
user message `"hi"`, cache TTL 60. -/
def ctxW : GlueCtx := ⟨"k", [], "hi", 60⟩

/-- C1 counterexample: with caching enabled and a cache key supplied, fully
draining a stream whose single fragment's delta is the whitespace string
`" "` performs NO cache write at all (`full_content.strip()` is falsy), so
"fully drained ⟹ exactly one cache write" is false as stated. -/
theorem c1_counterexample :
    (glueRun ctxW (glueInit [⟨some " "⟩]) 2).1 = [⟨some " "⟩]
    ∧ (glueRun ctxW (glueInit [⟨some " "⟩]) 2).2.done = true
    ∧ (glueRun ctxW (glueInit [⟨some " "⟩]) 2).2.writes = [] := by
  refine ⟨?_, ?_, ?_⟩ <;> rfl

/-- C1 (amended): with a cache key supplied, if the caller fully drains the
returned stream AND the concatenated textual deltas contain a
non-whitespace character, exactly one cache write occurs under that key,
whose value is the prior context plus the user message plus an assistant
message equal to the concatenation, in order, of every fragment's textual
delta; if the accumulated text is empty or whitespace-only no write occurs,
and if the caller stops consuming before exhaustion no write occurs at
all. -/
theorem c1_commit_on_completion (ctx : GlueCtx) (chunks : List Chunk)
    (fuel k : Nat) (hkey : ctx.key ≠ "") :
    (chunks.length + 1 ≤ fuel → stripTruthy (concatDeltas chunks) = true →
      (glueRun ctx (glueInit chunks) fuel).1 = chunks
      ∧ (glueRun ctx (glueInit chunks) fuel).2.writes
        = [(ctx.key,
            ctx.cachedMessage ++
              [⟨"user", ctx.userContent⟩,
               ⟨"assistant", concatDeltas chunks⟩],
            ctx.cacheTtl)])
    ∧ (chunks.length + 1 ≤ fuel →
        stripTruthy (concatDeltas chunks) = false →
      (glueRun ctx (glueInit chunks) fuel).2.writes = [])
    ∧ (k ≤ chunks.length →
      (glueRun ctx (glueInit chunks) k).2.writes = []
      ∧ (glueRun ctx (glueInit chunks) k).2.done = false) := by
  have hfold : List.foldl collectContent "" chunks = concatDeltas chunks :=
    (foldl_collect chunks "").trans rfl
  have hkey2 : (!(ctx.key == "")) = true := by
    simp [hkey]
  refine ⟨?_, ?_, ?_⟩
  · intro hfuel hstrip
    have hd := glueRun_drain ctx chunks (glueInit chunks) rfl rfl fuel hfuel
    rw [hd]
    refine ⟨rfl, ?_⟩
    show ([] : List (String × List Msg × Nat)) ++ _ = _
    simp only [glueInit]
    rw [hfold, hkey2, hstrip]
    simp
  · intro hfuel hstrip
    have hd := glueRun_drain ctx chunks (glueInit chunks) rfl rfl fuel hfuel
    rw [hd]
    show ([] : List (String × List Msg × Nat)) ++ _ = _
    simp only [glueInit]
    rw [hfold, hstrip]
    simp
  · intro hk
    have hp := glueRun_partial ctx k (glueInit chunks) rfl hk
    exact ⟨hp.2.1, hp.2.2⟩

/-- Witness for C1's amended theorem: fragments `["Hello", " world"]`, fully
drained, write exactly the entry with assistant text `"Hello world"`; the
same stream abandoned after one fragment writes nothing. -/
theorem c1_commit_on_completion_witness :
    (glueRun ctxW (glueInit [⟨some "Hello"⟩, ⟨some " world"⟩]) 3).2.writes
      = [("k", [⟨"user", "hi"⟩, ⟨"assistant", "Hello world"⟩], 60)]
    ∧ (glueRun ctxW (glueInit [⟨some "Hello"⟩, ⟨some " world"⟩]) 1).2.writes
      = [] := by
  have h := c1_commit_on_completion ctxW [⟨some "Hello"⟩, ⟨some " world"⟩]
    3 1 (by decide)
  constructor
  · have h2 := (h.1 (by decide) (by decide)).2
    rw [h2]
    rfl
  · exact (h.2.2 (by decide)).1

end ModX
